import Mathlib

/-!
# Verification of the MusicFree plugin aggregation pipeline (`src/main.py`)

Shallow embedding of the plugin aggregation-and-mirroring pipeline:
`sanitize_filename`, `fetch_sub_plugins`, `fetch_plugins` (with its inner
task `download_and_process_plugin`), `load_origins`, `collect_plugins`
and the control flow of `main`.

Modelling conventions:
* A Python plugin dict is a `Plugin` record: the `url` key, the optional
  `name` key, and all other keys collected as an opaque association list
  (`plugin.copy()` is a shallow copy, so it is the identity on this record).
* Network I/O is an oracle: for `fetch_plugins` the final outcome of the
  retried download of descriptor `i` is `dl i : Option String` (`some body`
  when some attempt within `MAX_RETRIES` succeeds with this response text,
  `none` when all attempts raise); for `fetch_sub_plugins` the per-attempt
  outcomes are given as a list (`none` = the attempt raised).
* `asyncio.gather` tasks are processed in task order: each coroutine runs
  synchronously up to its first `await`, so the `seen_urls`
  check-and-insert happens exactly in input order, while the `name_count`
  update is serialized between awaits; the embedding fixes the schedule to
  task order, which realizes one admissible interleaving of the
  serialized shared-state updates.
* Python `re` character classes over Unicode are modelled on the
  repertoire exercised by this program: `\w` as ASCII alphanumerics,
  underscore and the CJK ideograph range `一-鿿` that the regex
  names explicitly, and `\s` as the Unicode whitespace characters Python
  matches for `str` patterns.
-/

/-- One plugin descriptor: a JSON object with the `url` key, an optional
`name` key, and arbitrary further keys passed through untouched. -/
structure Plugin where
  url : String
  name : Option String
  extra : List (String × String)
deriving DecidableEq, Repr

/-- A file written to the content store: `(filename, content)`. -/
abbrev FileWrite := String × String

/-- `MAX_RETRIES = 3` from `main.py`. -/
def MAX_RETRIES : Nat := 3

/-- `VERSION = "0.2.0"` from `main.py`. -/
def VERSION : String := "0.2.0"

/-- Is `c` in the CJK range `一-鿿` named by the sanitization regex? -/
def isCjk (c : Char) : Bool :=
  0x4e00 ≤ c.toNat && c.toNat ≤ 0x9fff

/-- Python regex `\w` (word character), modelled on the repertoire this
program meets: ASCII alphanumerics, underscore, and CJK ideographs (which
are word characters in Unicode mode). -/
def pyWordChar (c : Char) : Bool :=
  c.isAlphanum || c = '_' || isCjk c

/-- Python regex `\s` for `str` patterns: ASCII whitespace and control
separators plus the Unicode space characters. -/
def pySpace (c : Char) : Bool :=
  c = ' ' || c = '\t' || c = '\n' || c = '\r' ||
  c.toNat = 0x0b || c.toNat = 0x0c ||
  c.toNat = 0x1c || c.toNat = 0x1d || c.toNat = 0x1e || c.toNat = 0x1f ||
  c.toNat = 0x85 || c.toNat = 0xa0 || c.toNat = 0x1680 ||
  (0x2000 ≤ c.toNat && c.toNat ≤ 0x200a) ||
  c.toNat = 0x2028 || c.toNat = 0x2029 || c.toNat = 0x202f ||
  c.toNat = 0x205f || c.toNat = 0x3000

/-- `sanitize_filename` from `main.py`:
`re.sub(r'[^\w一-鿿\s]', '', name)` keeps exactly the characters
matching `\w`, the CJK range or `\s`; then `.replace(' ', '_')` rewrites
each space character (U+0020 only) to an underscore; then
`cleaned[:50] if cleaned else "plugin"` truncates to 50 code points,
falling back to `"plugin"` when the cleaned string is empty. -/
def sanitize_filename (name : String) : String :=
  let cleaned :=
    (name.data.filter fun c => pyWordChar c || pySpace c).map
      fun c => if c = ' ' then '_' else c
  if cleaned.isEmpty then "plugin" else String.mk (cleaned.take 50)

/-- Python `str.replace` on code-point lists: scan left to right; on a
(non-empty) pattern match emit the replacement and skip the matched
characters (`skip` counts characters of the current match still to drop). -/
def replaceAux (pat repl : List Char) : List Char → Nat → List Char
  | [], _ => []
  | _ :: rest, k + 1 => replaceAux pat repl rest k
  | c :: rest, 0 =>
    if pat.isPrefixOf (c :: rest) && !pat.isEmpty then
      repl ++ replaceAux pat repl rest (pat.length - 1)
    else
      c :: replaceAux pat repl rest 0

/-- `s.replace(pat, repl)` (Python semantics: leftmost, non-overlapping). -/
def pyReplace (s pat repl : String) : String :=
  String.mk (replaceAux pat.data repl.data s.data 0)

/-- Line 111 of `main.py`: `name.replace("网易云", "W").replace("QQ", "T")`. -/
def substSensitive (name : String) : String :=
  pyReplace (pyReplace name "网易云" "W") "QQ" "T"

/-- Python `CDN_URL.rstrip('/')`: drop every trailing `'/'`. -/
def rstripSlash (s : String) : String :=
  String.mk ((s.data.reverse.dropWhile fun c => c = '/').reverse)

/-- Lines 133-140 of `main.py`: the rewritten URL of a mirrored plugin.
`USE_CDN = bool(CDN_URL)`, so the CDN branch is taken exactly when the
configured CDN base is non-empty. -/
def rewriteUrl (cdnUrl filename : String) : String :=
  if cdnUrl ≠ "" then rstripSlash cdnUrl ++ "/" ++ filename
  else "js/" ++ filename

/-- Lookup in the `name_count` dict (modelled as an association list). -/
def lookupCount : List (String × Nat) → String → Option Nat
  | [], _ => none
  | (k, v) :: rest, n => if k = n then some v else lookupCount rest n

/-- Update of the `name_count` dict. -/
def setCount : List (String × Nat) → String → Nat → List (String × Nat)
  | [], n, v => [(n, v)]
  | (k, w) :: rest, n, v =>
    if k = n then (n, v) :: rest else (k, w) :: setCount rest n v

/-- Lines 113-119 of `main.py`: collision resolution against `name_count`.
Returns the resolved display name and the updated dict. -/
def resolveName (m : List (String × Nat)) (n : String) :
    String × List (String × Nat) :=
  match lookupCount m n with
  | some c => (n ++ "_" ++ toString (c + 1), setCount m n (c + 1))
  | none => (n, setCount m n 0)

/-- The shared mutable state of `fetch_plugins`: the `seen_urls` set and
the `name_count` dict. -/
structure FPState where
  seen : List String
  nameCount : List (String × Nat)
deriving DecidableEq, Repr

/-- The inner task `download_and_process_plugin` of `fetch_plugins`
(lines 89-160 of `main.py`), with the outcome of the retried download
given by the oracle `dl` (`some body` = some attempt succeeded with
response text `body`; `none` = all `MAX_RETRIES` attempts raised).
Returns the task's `(success, new_plugin, original_plugin)` triple, the
updated shared state, and the file written to the `js` directory, if any. -/
def download_and_process_plugin (cdnUrl : String) (dl : Option String)
    (st : FPState) (plugin : Plugin) :
    (Bool × Plugin × Plugin) × FPState × Option FileWrite :=
  if plugin.url ∈ st.seen then
    ((false, plugin, plugin), st, none)
  else
    let st1 : FPState := { st with seen := plugin.url :: st.seen }
    match dl with
    | none => ((false, plugin, plugin), st1, none)
    | some body =>
      let name := substSensitive (plugin.name.getD plugin.url)
      let r := resolveName st1.nameCount name
      let plugin_name := r.1
      let st2 : FPState := { st1 with nameCount := r.2 }
      let clean_name := sanitize_filename plugin_name
      let filename := clean_name ++ ".js"
      let new_plugin : Plugin :=
        { plugin with name := some plugin_name, url := rewriteUrl cdnUrl filename }
      let original_plugin : Plugin := { plugin with name := some plugin_name }
      ((true, new_plugin, original_plugin), st2, some (filename, body))

/-- Result of running all `download_and_process_plugin` tasks:
the gathered `(success, new_plugin, original_plugin)` triples in task
order, the final shared state, and the content-store files written. -/
structure FetchResult where
  results : List (Bool × Plugin × Plugin)
  finalState : FPState
  files : List FileWrite
deriving DecidableEq, Repr

/-- Runs the tasks of `fetch_plugins` in task order, starting at task
index `i` with shared state `st`. -/
def fetchPluginsGo (cdnUrl : String) (dl : Nat → Option String) :
    Nat → FPState → List Plugin → FetchResult
  | _, st, [] => ⟨[], st, []⟩
  | i, st, p :: ps =>
    let step := download_and_process_plugin cdnUrl (dl i) st p
    let rest := fetchPluginsGo cdnUrl dl (i + 1) step.2.1 ps
    ⟨step.1 :: rest.results, rest.finalState, step.2.2.toList ++ rest.files⟩

/-- `fetch_plugins` (lines 75-176 of `main.py`): runs every task and
partitions the gathered results: successes contribute their `new_plugin`
to `valid_plugins`; every task contributes its `original_plugin` to
`original_plugins`. Returns
`(valid_plugins, original_plugins, files written)`. -/
def fetch_plugins (cdnUrl : String) (dl : Nat → Option String)
    (plugins : List Plugin) : List Plugin × List Plugin × List FileWrite :=
  let r := fetchPluginsGo cdnUrl dl 0 ⟨[], []⟩ plugins
  ((r.results.filter fun t => t.1).map (fun t => t.2.1),
   r.results.map (fun t => t.2.2),
   r.files)

/-- One HTTP attempt's parsed body for a subscription source: the JSON
object, holding a `plugins` array or not (`data.get("plugins", [])`). -/
structure SubResponse where
  plugins : Option (List Plugin)
deriving DecidableEq, Repr

/-- `fetch_sub_plugins` (lines 47-72 of `main.py`) over the list of its
per-attempt outcomes (`none` = the attempt raised): the first successful
attempt returns `data.get("plugins", [])`; when every attempt raises the
final retry returns `[]`. Called with `MAX_RETRIES` attempt outcomes. -/
def fetch_sub_plugins : List (Option SubResponse) → List Plugin
  | [] => []
  | some r :: _ => r.plugins.getD []
  | none :: rest => fetch_sub_plugins rest

/-- The source configuration: `{"sources": [...], "singles": [...]}`. -/
structure SourceConfig where
  sources : List String
  singles : List Plugin
deriving DecidableEq, Repr

/-- `load_origins` (lines 179-190 of `main.py`): `none` models the
exception path (missing or corrupt `origins.json`), which logs an error
and returns the dict `{"sources": [], "singles": []}`. The second
component records whether the error was logged. -/
def load_origins (cfgLoad : Option SourceConfig) : SourceConfig × Bool :=
  match cfgLoad with
  | some c => (c, false)
  | none => (⟨[], []⟩, true)

/-- `collect_plugins` (lines 215-241 of `main.py`): resolve each
subscription source in order (the attempt outcomes of source `i` are
`attemptsFor i`), flatten the results, then append the `singles`.
(Skipping the `extend` for an empty per-source list is observably the
same as extending with `[]`.) -/
def collect_plugins (attemptsFor : Nat → List (Option SubResponse))
    (origins : SourceConfig) : List Plugin :=
  ((List.range origins.sources.length).foldr
    (fun i acc => fetch_sub_plugins (attemptsFor i) ++ acc) [])
  ++ origins.singles

/-- Observable result of one run of `main` (lines 244-298 of `main.py`):
which manifests were written (with their `desc` and plugin list), the
content-store files written, and whether a configuration-load error was
logged. -/
structure MainResult where
  allManifest : Option (String × List Plugin)
  pluginsManifest : Option (String × List Plugin)
  jsFiles : List FileWrite
  configErrorLogged : Bool
deriving DecidableEq, Repr

/-- `mainRun`: the control flow of `main` (lines 244-298 of `main.py`), assuming the
`js`-directory reset succeeds. A corrupt or missing configuration yields
the dict `{"sources": [], "singles": []}`, which is truthy (two keys), so
`if not origins` does not fire on it; a parsed empty config reaches the
same early return through `if not all_plugins`. `if not valid_plugins`
returns before any manifest is written; otherwise both manifests are
written with `desc = VERSION`. -/
def mainRun (cfgLoad : Option SourceConfig)
    (attemptsFor : Nat → List (Option SubResponse))
    (dl : Nat → Option String) (cdnUrl : String) : MainResult :=
  let lo := load_origins cfgLoad
  let allPlugins := collect_plugins attemptsFor lo.1
  if allPlugins.isEmpty then
    ⟨none, none, [], lo.2⟩
  else
    let r := fetch_plugins cdnUrl dl allPlugins
    if r.1.isEmpty then ⟨none, none, r.2.2, lo.2⟩
    else ⟨some (VERSION, r.1), some (VERSION, r.2.1), r.2.2, lo.2⟩

/-- The duplicate flags of the descriptors, in task order: a descriptor is
flagged `true` when its `url` is already in `seen_urls` at its check
(line 99 of `main.py`); a non-duplicate adds its `url` to `seen_urls`
whether or not its download later succeeds. -/
def dupFlags : List String → List Plugin → List Bool
  | _, [] => []
  | seen, p :: ps =>
    if p.url ∈ seen then true :: dupFlags seen ps
    else false :: dupFlags (p.url :: seen) ps

/-- The post-substitution display names (line 109-111 of `main.py`) of the
descriptors whose download succeeds, in task order, starting from task
index `i` and seen-set `seen`. -/
def successBases (dl : Nat → Option String) :
    Nat → List String → List Plugin → List String
  | _, _, [] => []
  | i, seen, p :: ps =>
    if p.url ∈ seen then successBases dl (i + 1) seen ps
    else
      match dl i with
      | none => successBases dl (i + 1) (p.url :: seen) ps
      | some _ =>
        substSensitive (p.name.getD p.url) :: successBases dl (i + 1) (p.url :: seen) ps

/-- Sequential collision resolution of a list of display names against a
`name_count` dict, exactly as lines 113-119 of `main.py` do per success. -/
def resolveNames : List (String × Nat) → List String → List String
  | _, [] => []
  | m, n :: ns => (resolveName m n).1 :: resolveNames (resolveName m n).2 ns

/-- How many occurrences of name `n` the dict `m` already accounts for:
`0` when `n` is absent, `c + 1` when `name_count[n] = c`. -/
def priorOf (m : List (String × Nat)) (n : String) : Nat :=
  match lookupCount m n with
  | none => 0
  | some c => c + 1

/-- The resolved name of the `k`-th occurrence (0-based) of base name `n`:
the first keeps the bare name, the `k`-th subsequent one gets `_k`. -/
def mkResolved (n : String) (k : Nat) : String :=
  if k = 0 then n else n ++ "_" ++ toString k

/-- The sanitization procedure exactly as claim C4 words it, reading
"spaces" as the space character U+0020: remove every character that is
not an alphanumeric, an ideographic word character, an underscore or a
space; convert spaces to underscores; truncate to 50; fall back to
`"plugin"` when empty. -/
def sanitizeSpecClaimed (name : String) : String :=
  let cleaned :=
    (name.data.filter fun c => c.isAlphanum || isCjk c || c = '_' || c = ' ').map
      fun c => if c = ' ' then '_' else c
  if cleaned.isEmpty then "plugin" else String.mk (cleaned.take 50)

/-- The sanitization procedure as claim C4 words it under the alternative
reading of "spaces" as all whitespace: keep whitespace characters and
convert each of them to an underscore. -/
def sanitizeSpecWhitespace (name : String) : String :=
  let cleaned :=
    (name.data.filter fun c => c.isAlphanum || isCjk c || c = '_' || pySpace c).map
      fun c => if pySpace c then '_' else c
  if cleaned.isEmpty then "plugin" else String.mk (cleaned.take 50)

/-- The amended sanitization contract: remove every character that is not
an alphanumeric, an ideographic word character, an underscore or a
whitespace character; convert only the space character U+0020 to an
underscore (other whitespace is kept verbatim); truncate to 50; fall back
to `"plugin"` when empty. -/
def sanitizeSpecAmended (name : String) : String :=
  let cleaned :=
    (name.data.filter fun c => c.isAlphanum || c = '_' || isCjk c || pySpace c).map
      fun c => if c = ' ' then '_' else c
  if cleaned.isEmpty then "plugin" else String.mk (cleaned.take 50)

/-! ## Helper lemmas -/

theorem dapp_dup (cdnUrl : String) (dl : Option String) (st : FPState)
    (p : Plugin) (h : p.url ∈ st.seen) :
    download_and_process_plugin cdnUrl dl st p = ((false, p, p), st, none) := by
  simp [download_and_process_plugin, h]

theorem dapp_none (cdnUrl : String) (st : FPState) (p : Plugin)
    (h : p.url ∉ st.seen) :
    download_and_process_plugin cdnUrl none st p =
      ((false, p, p), ⟨p.url :: st.seen, st.nameCount⟩, none) := by
  simp [download_and_process_plugin, h]

theorem dapp_some (cdnUrl body : String) (st : FPState) (p : Plugin)
    (h : p.url ∉ st.seen) :
    download_and_process_plugin cdnUrl (some body) st p =
      ((true,
        { p with
            name := some (resolveName st.nameCount
              (substSensitive (p.name.getD p.url))).1,
            url := rewriteUrl cdnUrl (sanitize_filename (resolveName st.nameCount
              (substSensitive (p.name.getD p.url))).1 ++ ".js") },
        { p with
            name := some (resolveName st.nameCount
              (substSensitive (p.name.getD p.url))).1 }),
       ⟨p.url :: st.seen,
        (resolveName st.nameCount (substSensitive (p.name.getD p.url))).2⟩,
       some (sanitize_filename (resolveName st.nameCount
         (substSensitive (p.name.getD p.url))).1 ++ ".js", body)) := by
  simp [download_and_process_plugin, h]

theorem go_results_length (cdnUrl : String) (dl : Nat → Option String) :
    ∀ (ps : List Plugin) (i : Nat) (st : FPState),
      (fetchPluginsGo cdnUrl dl i st ps).results.length = ps.length
  | [], _, _ => rfl
  | p :: ps, i, st => by
    simp [fetchPluginsGo, go_results_length cdnUrl dl ps (i + 1)]

theorem go_all_success (cdnUrl : String) (dl : Nat → Option String) :
    ∀ (ps : List Plugin) (i : Nat) (st : FPState),
      (∀ r ∈ (fetchPluginsGo cdnUrl dl i st ps).results, r.1 = true) ↔
        ((ps.map (fun p => p.url)).Nodup ∧ (∀ p ∈ ps, p.url ∉ st.seen) ∧
          ∀ j, j < ps.length → (dl (i + j)).isSome)
  | [], i, st => by simp [fetchPluginsGo]
  | p :: ps, i, st => by
    by_cases hmem : p.url ∈ st.seen
    · simp only [fetchPluginsGo, dapp_dup cdnUrl (dl i) st p hmem]
      constructor
      · intro h
        exact absurd (h (false, p, p) (List.mem_cons_self _ _)) (by simp)
      · rintro ⟨-, h2, -⟩
        exact absurd hmem (h2 p (List.mem_cons_self _ _))
    · cases hdl : dl i with
      | none =>
        simp only [fetchPluginsGo, hdl, dapp_none cdnUrl st p hmem]
        constructor
        · intro h
          exact absurd (h (false, p, p) (List.mem_cons_self _ _)) (by simp)
        · rintro ⟨-, -, h3⟩
          have h0 := h3 0 (by simp)
          rw [Nat.add_zero, hdl] at h0
          simp at h0
      | some body =>
        simp only [fetchPluginsGo, hdl, dapp_some cdnUrl body st p hmem]
        have IH := go_all_success cdnUrl dl ps (i + 1)
          ⟨p.url :: st.seen,
           (resolveName st.nameCount (substSensitive (p.name.getD p.url))).2⟩
        constructor
        · intro h
          have hrest := fun r hr => h r (List.mem_cons_of_mem _ hr)
          obtain ⟨h1, h2, h3⟩ := IH.mp hrest
          refine ⟨?_, ?_, ?_⟩
          · simp only [List.map_cons, List.nodup_cons]
            refine ⟨?_, h1⟩
            intro hp
            obtain ⟨q, hq, hq2⟩ := List.mem_map.mp hp
            exact (h2 q hq) (by rw [hq2]; exact List.mem_cons_self _ _)
          · intro q hq
            rcases List.mem_cons.mp hq with rfl | hq2
            · exact hmem
            · exact fun hq3 => (h2 q hq2) (List.mem_cons_of_mem _ hq3)
          · intro j hj
            cases j with
            | zero => rw [Nat.add_zero, hdl]; rfl
            | succ j =>
              have hh := h3 j (by simpa using hj)
              rwa [show i + (j + 1) = i + 1 + j by omega]
        · rintro ⟨h1, h2, h3⟩
          simp only [List.map_cons, List.nodup_cons] at h1
          obtain ⟨hp, h1a⟩ := h1
          intro r hr
          rcases List.mem_cons.mp hr with rfl | hr2
          · rfl
          · refine (IH.mpr ⟨h1a, ?_, ?_⟩) r hr2
            · intro q hq
              simp only [List.mem_cons, not_or]
              refine ⟨?_, h2 q (List.mem_cons_of_mem _ hq)⟩
              intro he
              exact hp (List.mem_map.mpr ⟨q, hq, he⟩)
            · intro j hj
              have hh := h3 (j + 1) (by simpa using Nat.succ_lt_succ hj)
              rwa [show i + (j + 1) = i + 1 + j by omega] at hh

theorem filter_length_eq_iff {α : Type} (p : α → Bool) (l : List α) :
    (l.filter p).length = l.length ↔ ∀ a ∈ l, p a = true := by
  constructor
  · intro h
    have he := (List.filter_sublist (l := l) (p := p)).eq_of_length h
    exact fun a ha => List.of_mem_filter (p := p) (he ▸ ha)
  · intro h
    rw [List.filter_eq_self.mpr h]

/-- C1: for every input descriptor list, `fetch_plugins` returns one
`OriginalPlugin` record per input descriptor (duplicates and failed
downloads included), and a `ProcessedPlugin` list of length at most the
input count, with equality iff every download succeeds and no two
descriptors share a URL. -/
theorem claim_C1 (cdnUrl : String) (dl : Nat → Option String) (ps : List Plugin) :
    (fetch_plugins cdnUrl dl ps).2.1.length = ps.length ∧
    (fetch_plugins cdnUrl dl ps).1.length ≤ ps.length ∧
    ((fetch_plugins cdnUrl dl ps).1.length = ps.length ↔
      ((ps.map (fun p => p.url)).Nodup ∧ ∀ i, i < ps.length → (dl i).isSome)) := by
  have hlen := go_results_length cdnUrl dl ps 0 ⟨[], []⟩
  refine ⟨?_, ?_, ?_⟩
  · simp [fetch_plugins, hlen]
  · simp only [fetch_plugins, List.length_map]
    exact le_trans (List.length_filter_le _ _) (le_of_eq hlen)
  · constructor
    · intro h
      have hall : ∀ r ∈ (fetchPluginsGo cdnUrl dl 0 ⟨[], []⟩ ps).results, r.1 = true := by
        have hf := (filter_length_eq_iff (fun t : Bool × Plugin × Plugin => t.1)
          (fetchPluginsGo cdnUrl dl 0 ⟨[], []⟩ ps).results).mp
          (by rw [hlen]; simpa [fetch_plugins] using h)
        exact fun r hr => hf r hr
      have hc := (go_all_success cdnUrl dl ps 0 ⟨[], []⟩).mp hall
      refine ⟨hc.1, fun i hi => ?_⟩
      simpa using hc.2.2 i hi
    · rintro ⟨h1, h2⟩
      have hall := (go_all_success cdnUrl dl ps 0 ⟨[], []⟩).mpr
        ⟨h1, by simp, fun j hj => by simpa using h2 j hj⟩
      have hfl := (filter_length_eq_iff (fun t => t.1)
        (fetchPluginsGo cdnUrl dl 0 ⟨[], []⟩ ps).results).mpr hall
      simp [fetch_plugins, hfl, hlen]

/-- Witness for C1 at a concrete input: two distinct-URL descriptors, all
downloads succeeding, give a `ProcessedPlugin` list of full length. -/
theorem claim_C1_witness :
    (fetch_plugins "" (fun _ => some "x")
      [⟨"u1", some "A", []⟩, ⟨"u2", some "B", []⟩]).1.length = 2 :=
  (claim_C1 "" (fun _ => some "x")
    [⟨"u1", some "A", []⟩, ⟨"u2", some "B", []⟩]).2.2.mpr (by decide)

theorem go_dup_results (cdnUrl : String) (dl : Nat → Option String) :
    ∀ (ps : List Plugin) (i : Nat) (st : FPState),
      ∀ q ∈ (ps.zip (dupFlags st.seen ps)).zip
          (fetchPluginsGo cdnUrl dl i st ps).results,
        q.1.2 = true → q.2 = (false, q.1.1, q.1.1)
  | [], _, _ => by simp [fetchPluginsGo, dupFlags]
  | p :: ps, i, st => by
    by_cases hmem : p.url ∈ st.seen
    · simp only [fetchPluginsGo, dupFlags, if_pos hmem,
        dapp_dup cdnUrl (dl i) st p hmem, List.zip_cons_cons]
      intro q hq
      rcases List.mem_cons.mp hq with rfl | hq2
      · intro _; rfl
      · exact go_dup_results cdnUrl dl ps (i + 1) st q hq2
    · cases hdl : dl i with
      | none =>
        simp only [fetchPluginsGo, dupFlags, if_neg hmem, hdl,
          dapp_none cdnUrl st p hmem, List.zip_cons_cons]
        intro q hq
        rcases List.mem_cons.mp hq with rfl | hq2
        · intro hf; exact absurd hf (by simp)
        · exact go_dup_results cdnUrl dl ps (i + 1)
            ⟨p.url :: st.seen, st.nameCount⟩ q hq2
      | some body =>
        simp only [fetchPluginsGo, dupFlags, if_neg hmem, hdl,
          dapp_some cdnUrl body st p hmem, List.zip_cons_cons]
        intro q hq
        rcases List.mem_cons.mp hq with rfl | hq2
        · intro hf; exact absurd hf (by simp)
        · exact go_dup_results cdnUrl dl ps (i + 1)
            ⟨p.url :: st.seen,
             (resolveName st.nameCount (substSensitive (p.name.getD p.url))).2⟩ q hq2

theorem dupFlags_count_zero (u : String) :
    ∀ (ps : List Plugin) (seen : List String), u ∈ seen →
      ((ps.zip (dupFlags seen ps)).countP fun q => q.1.url == u && !q.2) = 0
  | [], _, _ => rfl
  | p :: ps, seen, hu => by
    by_cases hmem : p.url ∈ seen
    · have IH := dupFlags_count_zero u ps seen hu
      simp only [dupFlags, if_pos hmem, List.zip_cons_cons, List.countP_cons]
      simp [IH]
    · have hne : p.url ≠ u := fun he => hmem (he ▸ hu)
      have IH := dupFlags_count_zero u ps (p.url :: seen) (List.mem_cons_of_mem _ hu)
      simp only [dupFlags, if_neg hmem, List.zip_cons_cons, List.countP_cons]
      simp [hne, IH]

theorem dupFlags_count_one (u : String) :
    ∀ (ps : List Plugin) (seen : List String), u ∉ seen →
      u ∈ ps.map (fun p => p.url) →
      ((ps.zip (dupFlags seen ps)).countP fun q => q.1.url == u && !q.2) = 1
  | [], _, _, hmem => by simp at hmem
  | p :: ps, seen, hu, hmem => by
    rw [List.map_cons] at hmem
    by_cases hm : p.url ∈ seen
    · have hne : p.url ≠ u := fun he => hu (he ▸ hm)
      have hu2 : u ∈ ps.map (fun p => p.url) := by
        rcases List.mem_cons.mp hmem with he | h2
        · exact absurd he.symm hne
        · exact h2
      have IH := dupFlags_count_one u ps seen hu hu2
      simp only [dupFlags, if_pos hm, List.zip_cons_cons, List.countP_cons]
      simp [IH]
    · by_cases he : u = p.url
      · subst he
        have hz := dupFlags_count_zero p.url ps (p.url :: seen) (List.mem_cons_self _ _)
        simp only [dupFlags, if_neg hm, List.zip_cons_cons, List.countP_cons]
        rw [hz]
        simp
      · have hu2 : u ∈ ps.map (fun p => p.url) := by
          rcases List.mem_cons.mp hmem with h1 | h2
          · exact absurd h1 he
          · exact h2
        have hu3 : u ∉ p.url :: seen := by
          simp only [List.mem_cons, not_or]
          exact ⟨he, hu⟩
        have IH := dupFlags_count_one u ps (p.url :: seen) hu3 hu2
        simp only [dupFlags, if_neg hm, List.zip_cons_cons, List.countP_cons]
        rw [IH]
        simp [Ne.symm he]

/-- C2: for every group of input descriptors sharing the same `url`,
exactly one passes the `seen_urls` check (is submitted to the
download/rename pipeline); every other one yields the gathered triple
`(False, plugin, plugin.copy())`, so it is excluded from the
`ProcessedPlugin` output (built from success-flagged triples only) and
contributes its unmodified descriptor — no sensitive-term substitution,
no collision suffix — to the `OriginalPlugin` output. -/
theorem claim_C2 (cdnUrl : String) (dl : Nat → Option String) (ps : List Plugin)
    (u : String) (hu : u ∈ ps.map (fun p => p.url)) :
    ((ps.zip (dupFlags [] ps)).countP fun q => q.1.url == u && !q.2) = 1 ∧
    (∀ q ∈ (ps.zip (dupFlags [] ps)).zip
        (fetchPluginsGo cdnUrl dl 0 ⟨[], []⟩ ps).results,
      q.1.2 = true → q.2 = (false, q.1.1, q.1.1)) ∧
    (fetch_plugins cdnUrl dl ps).1 =
      ((fetchPluginsGo cdnUrl dl 0 ⟨[], []⟩ ps).results.filter fun t => t.1).map
        (fun t => t.2.1) ∧
    (fetch_plugins cdnUrl dl ps).2.1 =
      (fetchPluginsGo cdnUrl dl 0 ⟨[], []⟩ ps).results.map fun t => t.2.2 := by
  refine ⟨dupFlags_count_one u ps [] (by simp) hu, ?_, rfl, rfl⟩
  exact fun q hq => go_dup_results cdnUrl dl ps 0 ⟨[], []⟩ q hq

/-- Witness for C2 at a concrete input: two descriptors sharing `"u"`,
exactly one is submitted. -/
theorem claim_C2_witness :
    (([(⟨"u", some "A", []⟩ : Plugin), ⟨"u", some "B", []⟩].zip
        (dupFlags [] [⟨"u", some "A", []⟩, ⟨"u", some "B", []⟩])).countP
      fun q => q.1.url == "u" && !q.2) = 1 :=
  (claim_C2 "" (fun _ => some "x") [⟨"u", some "A", []⟩, ⟨"u", some "B", []⟩]
    "u" (by decide)).1

theorem lookupCount_setCount_same :
    ∀ (m : List (String × Nat)) (n : String) (v : Nat),
      lookupCount (setCount m n v) n = some v
  | [], n, v => by simp [setCount, lookupCount]
  | (k, w) :: rest, n, v => by
    by_cases h : k = n
    · simp [setCount, lookupCount, h]
    · simp [setCount, lookupCount, h, lookupCount_setCount_same rest n v]

theorem lookupCount_setCount_other :
    ∀ (m : List (String × Nat)) (k n : String) (v : Nat), k ≠ n →
      lookupCount (setCount m k v) n = lookupCount m n
  | [], k, n, v, h => by simp [setCount, lookupCount, h]
  | (a, b) :: rest, k, n, v, h => by
    by_cases ha : a = k
    · simp [setCount, lookupCount, ha, h]
    · by_cases han : a = n
      · simp [setCount, lookupCount, ha, han, Ne.symm h]
      · simp [setCount, lookupCount, ha, han,
          lookupCount_setCount_other rest k n v h]

theorem resolveName_fst (m : List (String × Nat)) (n : String) :
    (resolveName m n).1 = mkResolved n (priorOf m n) := by
  cases h : lookupCount m n <;> simp [resolveName, priorOf, mkResolved, h]

theorem priorOf_resolve_same (m : List (String × Nat)) (n : String) :
    priorOf (resolveName m n).2 n = priorOf m n + 1 := by
  cases h : lookupCount m n <;>
    simp [resolveName, priorOf, h, lookupCount_setCount_same]

theorem priorOf_resolve_other (m : List (String × Nat)) (b n : String)
    (h : b ≠ n) : priorOf (resolveName m b).2 n = priorOf m n := by
  cases hb : lookupCount m b <;>
    simp [resolveName, priorOf, hb, lookupCount_setCount_other m b n _ h]

theorem resolveNames_filter (n : String) :
    ∀ (bs : List String) (m : List (String × Nat)),
      (((bs.zip (resolveNames m bs)).filter fun q => q.1 == n).map fun q => q.2) =
        (List.range (bs.count n)).map fun j => mkResolved n (priorOf m n + j)
  | [], m => by simp [resolveNames]
  | b :: bs, m => by
    by_cases hb : b = n
    · subst hb
      have IH := resolveNames_filter b bs (resolveName m b).2
      simp only [resolveNames, List.zip_cons_cons, List.filter_cons,
        beq_self_eq_true, if_true, List.map_cons, List.count_cons_self,
        List.range_succ_eq_map, List.map_map]
      rw [IH, priorOf_resolve_same, resolveName_fst]
      refine List.cons_eq_cons.mpr ⟨by simp [mkResolved], ?_⟩
      apply List.map_congr_left
      intro j hj
      have harg : priorOf m b + 1 + j = priorOf m b + (j + 1) := by omega
      simp [Function.comp, mkResolved, harg]
    · have IH := resolveNames_filter n bs (resolveName m b).2
      have hbeq : (b == n) = false := by simpa using hb
      simp only [resolveNames, List.zip_cons_cons, List.filter_cons, hbeq,
        Bool.false_eq_true, if_false, List.count_cons, hbeq]
      rw [IH, priorOf_resolve_other m b n hb]
      simp [hb]

theorem go_valid_names (cdnUrl : String) (dl : Nat → Option String) :
    ∀ (ps : List Plugin) (i : Nat) (st : FPState),
      (((fetchPluginsGo cdnUrl dl i st ps).results.filter fun t => t.1).map
        fun t => t.2.1.name.getD "") =
        resolveNames st.nameCount (successBases dl i st.seen ps)
  | [], _, _ => by simp [fetchPluginsGo, successBases, resolveNames]
  | p :: ps, i, st => by
    by_cases hmem : p.url ∈ st.seen
    · simp only [fetchPluginsGo, dapp_dup cdnUrl (dl i) st p hmem,
        successBases, if_pos hmem, List.filter_cons]
      rw [if_neg (by simp)]
      exact go_valid_names cdnUrl dl ps (i + 1) st
    · cases hdl : dl i with
      | none =>
        simp only [fetchPluginsGo, hdl, dapp_none cdnUrl st p hmem,
          successBases, if_neg hmem, List.filter_cons]
        rw [if_neg (by simp)]
        exact go_valid_names cdnUrl dl ps (i + 1) ⟨p.url :: st.seen, st.nameCount⟩
      | some body =>
        simp only [fetchPluginsGo, hdl, dapp_some cdnUrl body st p hmem,
          successBases, if_neg hmem, List.filter_cons]
        rw [if_pos (by simp)]
        simp only [List.map_cons, resolveNames]
        refine List.cons_eq_cons.mpr ⟨by simp, ?_⟩
        exact go_valid_names cdnUrl dl ps (i + 1)
          ⟨p.url :: st.seen,
           (resolveName st.nameCount (substSensitive (p.name.getD p.url))).2⟩

/-- C3: among successfully downloaded descriptors whose post-substitution
display name equals `n`, the first occurrence (in task order) keeps the
bare name and the `j`-th subsequent occurrence gets the suffix `_j` from
the per-name counter; in particular three plugins named `"Foo"` resolve
to `"Foo"`, `"Foo_1"`, `"Foo_2"`. -/
theorem claim_C3 (cdnUrl : String) (dl : Nat → Option String)
    (ps : List Plugin) (n : String) :
    ((((successBases dl 0 [] ps).zip
        ((fetch_plugins cdnUrl dl ps).1.map fun p => p.name.getD "")).filter
      fun q => q.1 == n).map fun q => q.2) =
      (List.range ((successBases dl 0 [] ps).count n)).map
        (fun j => if j = 0 then n else n ++ "_" ++ toString j) ∧
    (fetch_plugins "" (fun _ => some "x")
      [⟨"u1", some "Foo", []⟩, ⟨"u2", some "Foo", []⟩,
       ⟨"u3", some "Foo", []⟩]).1.map (fun p => p.name.getD "") =
      ["Foo", "Foo_1", "Foo_2"] := by
  constructor
  · have h1 : (fetch_plugins cdnUrl dl ps).1.map (fun p => p.name.getD "") =
        resolveNames [] (successBases dl 0 [] ps) := by
      simpa [fetch_plugins, List.map_map, Function.comp] using
        go_valid_names cdnUrl dl ps 0 ⟨[], []⟩
    rw [h1, resolveNames_filter]
    apply List.map_congr_left
    intro j hj
    simp [mkResolved, priorOf, lookupCount]
  · decide

/-- C4 counterexample: on the input `"a\tb"` the code keeps the tab
character verbatim (the regex keeps all of `\s` but only U+0020 is
converted to an underscore), while the claim — under either reading of
"spaces" — requires `"ab"` (tab removed) or `"a_b"` (tab converted). -/
theorem claim_C4_counterexample :
    sanitize_filename "a\tb" = "a\tb" ∧
    sanitizeSpecClaimed "a\tb" = "ab" ∧
    sanitizeSpecWhitespace "a\tb" = "a_b" ∧
    sanitize_filename "a\tb" ≠ sanitizeSpecClaimed "a\tb" ∧
    sanitize_filename "a\tb" ≠ sanitizeSpecWhitespace "a\tb" := by decide

/-- C4 (amended): sanitization removes every character that is not an
alphanumeric, an ideographic word character, an underscore or a
whitespace character; converts only the space character U+0020 to an
underscore (other whitespace such as tab is kept verbatim); truncates the
cleaned result to at most 50 characters — exactly 50 whenever the cleaned
result is longer than 50 — and returns the literal fallback `"plugin"`
when the cleaned result is empty, so the result is always non-empty. -/
theorem claim_C4 (s : String) :
    sanitize_filename s = sanitizeSpecAmended s ∧
    sanitize_filename s ≠ "" ∧
    (sanitize_filename s).length ≤ 50 ∧
    (50 < (s.data.filter fun c => pyWordChar c || pySpace c).length →
      (sanitize_filename s).length = 50) := by
  refine ⟨?_, ?_, ?_, ?_⟩
  · simp only [sanitize_filename, sanitizeSpecAmended]
    have hp : ∀ c ∈ s.data, (pyWordChar c || pySpace c) =
        (c.isAlphanum || c = '_' || isCjk c || pySpace c) := by
      intro c _
      simp [pyWordChar, Bool.or_assoc]
    rw [List.filter_congr hp]
  · simp only [sanitize_filename]
    by_cases he : ((s.data.filter fun c => pyWordChar c || pySpace c).map
        fun c => if c = ' ' then '_' else c).isEmpty
    · rw [if_pos he]; decide
    · rw [if_neg he]
      intro hcon
      have hdata : (((s.data.filter fun c => pyWordChar c || pySpace c).map
          fun c => if c = ' ' then '_' else c).take 50) = [] := by
        have := congrArg String.data hcon
        simpa using this
      rcases List.take_eq_nil_iff.mp hdata with h50 | hnil
      · exact absurd h50 (by decide)
      · exact he (by simp [hnil])
  · simp only [sanitize_filename]
    by_cases he : ((s.data.filter fun c => pyWordChar c || pySpace c).map
        fun c => if c = ' ' then '_' else c).isEmpty
    · rw [if_pos he]; decide
    · rw [if_neg he]
      rw [String.length_mk, List.length_take]
      omega
  · intro h50
    simp only [sanitize_filename]
    have hlen : ((s.data.filter fun c => pyWordChar c || pySpace c).map
        fun c => if c = ' ' then '_' else c).length =
        (s.data.filter fun c => pyWordChar c || pySpace c).length :=
      List.length_map _ _
    have hne : ¬ ((s.data.filter fun c => pyWordChar c || pySpace c).map
        fun c => if c = ' ' then '_' else c).isEmpty := by
      rw [List.isEmpty_iff_length_eq_zero]
      omega
    rw [if_neg hne, String.length_mk, List.length_take]
    omega

/-- Witness for C4 at a concrete input: a 60-character name is truncated
to exactly 50 characters. -/
theorem claim_C4_witness :
    50 < (("aaaaaaaaaaaaaaaaaaaaaaaaaaaaaaaaaaaaaaaaaaaaaaaaaaaaaaaaaaaa" : String).data.filter
      fun c => pyWordChar c || pySpace c).length ∧
    (sanitize_filename "aaaaaaaaaaaaaaaaaaaaaaaaaaaaaaaaaaaaaaaaaaaaaaaaaaaaaaaaaaaa").length = 50 :=
  ⟨by decide,
   (claim_C4 "aaaaaaaaaaaaaaaaaaaaaaaaaaaaaaaaaaaaaaaaaaaaaaaaaaaaaaaaaaaa").2.2.2
     (by decide)⟩

theorem go_files (cdnUrl : String) (dl : Nat → Option String) :
    ∀ (ps : List Plugin) (i : Nat) (st : FPState),
      (fetchPluginsGo cdnUrl dl i st ps).files.map (fun f => f.1) =
        (((fetchPluginsGo cdnUrl dl i st ps).results.filter fun t => t.1).map
          fun t => sanitize_filename (t.2.1.name.getD "") ++ ".js")
  | [], _, _ => by simp [fetchPluginsGo]
  | p :: ps, i, st => by
    by_cases hmem : p.url ∈ st.seen
    · simp only [fetchPluginsGo, dapp_dup cdnUrl (dl i) st p hmem,
        List.filter_cons]
      rw [if_neg (by simp)]
      simpa using go_files cdnUrl dl ps (i + 1) st
    · cases hdl : dl i with
      | none =>
        simp only [fetchPluginsGo, hdl, dapp_none cdnUrl st p hmem,
          List.filter_cons]
        rw [if_neg (by simp)]
        simpa using go_files cdnUrl dl ps (i + 1) ⟨p.url :: st.seen, st.nameCount⟩
      | some body =>
        simp only [fetchPluginsGo, hdl, dapp_some cdnUrl body st p hmem,
          List.filter_cons]
        rw [if_pos (by simp)]
        simp only [Option.toList_some, List.singleton_append, List.map_cons]
        refine List.cons_eq_cons.mpr ⟨by simp, ?_⟩
        exact go_files cdnUrl dl ps (i + 1)
          ⟨p.url :: st.seen,
           (resolveName st.nameCount (substSensitive (p.name.getD p.url))).2⟩

theorem map_eq_getD {α β γ : Type} (f : α → γ) (g : β → γ) (A : List α)
    (B : List β) (h : A.map f = B.map g) (i : Nat) (a : α) (b : β)
    (hiA : i < A.length) (hiB : i < B.length) :
    f (A.getD i a) = g (B.getD i b) := by
  rw [List.getD_eq_getElem A a hiA, List.getD_eq_getElem B b hiB]
  have h1 := List.getElem_of_eq h (i := i) (by simpa using hiA)
  simpa using h1

theorem string_append_right_cancel (a b t : String) (h : a ++ t = b ++ t) :
    a = b := by
  have hd : a.data ++ t.data = b.data ++ t.data := by
    have h2 := congrArg String.data h
    simpa [String.data_append] using h2
  have hlen : a.data.length = b.data.length := by
    have h3 := congrArg List.length hd
    rw [List.length_append, List.length_append] at h3
    omega
  exact String.ext (List.append_inj hd hlen).1

/-- C5 counterexample: the distinct descriptors named `"a!"` and `"a?"`
(distinct URLs, both downloads succeeding) are both successfully
processed, their resolved names are distinct, yet both tasks write the
same content-store filename `"a.js"`. -/
theorem claim_C5_counterexample :
    (fetch_plugins "" (fun _ => some "x")
      [⟨"u1", some "a!", []⟩, ⟨"u2", some "a?", []⟩]).1.length = 2 ∧
    (fetch_plugins "" (fun _ => some "x")
      [⟨"u1", some "a!", []⟩, ⟨"u2", some "a?", []⟩]).1.map
      (fun p => p.name.getD "") = ["a!", "a?"] ∧
    (fetch_plugins "" (fun _ => some "x")
      [⟨"u1", some "a!", []⟩, ⟨"u2", some "a?", []⟩]).2.2 =
      [("a.js", "x"), ("a.js", "x")] := by decide

/-- C5 (amended): the content-store filename of every successfully
processed descriptor is exactly its sanitized resolved name plus `.js`,
so two successful tasks write distinct files whenever their sanitized
resolved names are distinct — but sanitization (character removal and
50-character truncation) can map two distinct resolved names to the same
filename. -/
theorem claim_C5 (cdnUrl : String) (dl : Nat → Option String) (ps : List Plugin) :
    (fetch_plugins cdnUrl dl ps).2.2.map (fun f => f.1) =
      (fetch_plugins cdnUrl dl ps).1.map
        (fun p => sanitize_filename (p.name.getD "") ++ ".js") ∧
    ∀ i j, i < (fetch_plugins cdnUrl dl ps).1.length →
      j < (fetch_plugins cdnUrl dl ps).1.length →
      sanitize_filename
          (((fetch_plugins cdnUrl dl ps).1.getD i ⟨"", none, []⟩).name.getD "") ≠
        sanitize_filename
          (((fetch_plugins cdnUrl dl ps).1.getD j ⟨"", none, []⟩).name.getD "") →
      ((fetch_plugins cdnUrl dl ps).2.2.getD i ("", "")).1 ≠
        ((fetch_plugins cdnUrl dl ps).2.2.getD j ("", "")).1 := by
  have hmap : (fetch_plugins cdnUrl dl ps).2.2.map (fun f => f.1) =
      (fetch_plugins cdnUrl dl ps).1.map
        (fun p => sanitize_filename (p.name.getD "") ++ ".js") := by
    simpa [fetch_plugins, List.map_map, Function.comp] using
      go_files cdnUrl dl ps 0 ⟨[], []⟩
  refine ⟨hmap, ?_⟩
  intro i j hi hj hne
  have hflen : (fetch_plugins cdnUrl dl ps).2.2.length =
      (fetch_plugins cdnUrl dl ps).1.length := by
    have hl := congrArg List.length hmap
    simpa using hl
  have hFi := map_eq_getD (fun f : FileWrite => f.1)
    (fun p : Plugin => sanitize_filename (p.name.getD "") ++ ".js")
    (fetch_plugins cdnUrl dl ps).2.2 (fetch_plugins cdnUrl dl ps).1 hmap i
    ("", "") ⟨"", none, []⟩ (by omega) hi
  have hFj := map_eq_getD (fun f : FileWrite => f.1)
    (fun p : Plugin => sanitize_filename (p.name.getD "") ++ ".js")
    (fetch_plugins cdnUrl dl ps).2.2 (fetch_plugins cdnUrl dl ps).1 hmap j
    ("", "") ⟨"", none, []⟩ (by omega) hj
  beta_reduce at hFi hFj
  rw [hFi, hFj]
  intro heq
  exact hne (string_append_right_cancel _ _ ".js" heq)

/-- Witness for C5 at a concrete input: two successes with distinct
sanitized resolved names write distinct filenames. -/
theorem claim_C5_witness :
    sanitize_filename
        (((fetch_plugins "" (fun _ => some "x")
          [⟨"u1", some "A", []⟩, ⟨"u2", some "B", []⟩]).1.getD 0
            ⟨"", none, []⟩).name.getD "") ≠
      sanitize_filename
        (((fetch_plugins "" (fun _ => some "x")
          [⟨"u1", some "A", []⟩, ⟨"u2", some "B", []⟩]).1.getD 1
            ⟨"", none, []⟩).name.getD "") ∧
    ((fetch_plugins "" (fun _ => some "x")
      [⟨"u1", some "A", []⟩, ⟨"u2", some "B", []⟩]).2.2.getD 0 ("", "")).1 ≠
      ((fetch_plugins "" (fun _ => some "x")
        [⟨"u1", some "A", []⟩, ⟨"u2", some "B", []⟩]).2.2.getD 1 ("", "")).1 :=
  ⟨by decide,
   (claim_C5 "" (fun _ => some "x")
     [⟨"u1", some "A", []⟩, ⟨"u2", some "B", []⟩]).2 0 1 (by decide) (by decide)
     (by decide)⟩

theorem fetch_sub_plugins_exhausted :
    ∀ attempts : List (Option SubResponse), (∀ a ∈ attempts, a = none) →
      fetch_sub_plugins attempts = []
  | [], _ => rfl
  | a :: rest, h => by
    have ha := h a (List.mem_cons_self _ _)
    subst ha
    exact fetch_sub_plugins_exhausted rest fun x hx => h x (List.mem_cons_of_mem _ hx)

theorem foldr_range_nil (f : Nat → List Plugin) :
    ∀ n : Nat, (∀ i, i < n → f i = []) →
      (List.range n).foldr (fun i acc => f i ++ acc) [] = []
  | 0, _ => rfl
  | n + 1, h => by
    rw [List.range_succ, List.foldr_append]
    have hn : f n = [] := h n (by omega)
    simp only [List.foldr_cons, List.foldr_nil, hn, List.nil_append]
    exact foldr_range_nil f n fun i hi => h i (by omega)

theorem collect_plugins_all_fail (att : Nat → List (Option SubResponse))
    (cfg : SourceConfig)
    (h : ∀ i, i < cfg.sources.length → fetch_sub_plugins (att i) = []) :
    collect_plugins att cfg = cfg.singles := by
  unfold collect_plugins
  rw [foldr_range_nil (fun i => fetch_sub_plugins (att i)) cfg.sources.length h]
  simp

/-- C6: a subscription source whose every retry attempt raises resolves to
the empty list; a fetched JSON object lacking the `plugins` key resolves
to the empty list; and in both cases the run continues — when every
source fails, `collect_plugins` degrades to the configured `singles`, and
the whole run behaves exactly as if only the `singles` were configured. -/
theorem claim_C6 :
    (∀ attempts : List (Option SubResponse), (∀ a ∈ attempts, a = none) →
      fetch_sub_plugins attempts = []) ∧
    (∀ (r : SubResponse) (rest : List (Option SubResponse)), r.plugins = none →
      fetch_sub_plugins (some r :: rest) = []) ∧
    (∀ (att : Nat → List (Option SubResponse)) (cfg : SourceConfig),
      (∀ i, i < cfg.sources.length → fetch_sub_plugins (att i) = []) →
      collect_plugins att cfg = cfg.singles) ∧
    (∀ (cfg : SourceConfig) (att : Nat → List (Option SubResponse))
        (dl : Nat → Option String) (cdn : String),
      (∀ i, i < cfg.sources.length → fetch_sub_plugins (att i) = []) →
      mainRun (some cfg) att dl cdn = mainRun (some ⟨[], cfg.singles⟩) att dl cdn) := by
  refine ⟨fetch_sub_plugins_exhausted, ?_, ?_, ?_⟩
  · intro r rest h
    simp [fetch_sub_plugins, h]
  · exact fun att cfg h => collect_plugins_all_fail att cfg h
  · intro cfg att dl cdn h
    have h1 := collect_plugins_all_fail att cfg h
    have h2 : collect_plugins att ⟨[], cfg.singles⟩ = cfg.singles := by
      simp [collect_plugins]
    simp only [mainRun, load_origins, h1, h2]

/-- Witness for C6 at concrete inputs: three raising attempts resolve to
`[]`; a response without `plugins` resolves to `[]`; a config whose only
source always fails degrades to its `singles`. -/
theorem claim_C6_witness :
    fetch_sub_plugins [none, none, none] = [] ∧
    fetch_sub_plugins [some ⟨none⟩, none] = [] ∧
    collect_plugins (fun _ => [none, none, none])
      ⟨["http://bad"], [⟨"u", some "A", []⟩]⟩ = [⟨"u", some "A", []⟩] :=
  ⟨claim_C6.1 [none, none, none] (by decide),
   claim_C6.2.1 ⟨none⟩ [none] rfl,
   claim_C6.2.2.1 (fun _ => [none, none, none])
     ⟨["http://bad"], [⟨"u", some "A", []⟩]⟩ (by decide)⟩

theorem rstripSlash_no_trailing (s : String) :
    (rstripSlash s).data.getLast? ≠ some '/' := by
  intro h
  unfold rstripSlash at h
  rw [show (String.mk ((s.data.reverse.dropWhile fun c => c = '/').reverse)).data
      = (s.data.reverse.dropWhile fun c => c = '/').reverse from rfl] at h
  rw [List.getLast?_reverse] at h
  have hh := List.head?_dropWhile_not (fun c => c = '/') s.data.reverse
  rw [h] at hh
  simp at hh

theorem rstripSlash_append_slash (s : String) :
    rstripSlash (s ++ "/") = rstripSlash s := by
  unfold rstripSlash
  congr 1
  have hd : (s ++ "/").data = s.data ++ ['/'] := by
    simp [String.data_append]
  rw [hd, List.reverse_append]
  simp [List.dropWhile]

/-- C7: for a successfully downloaded descriptor, the `ProcessedPlugin`
URL is `<cdnBase>/<filename>` when a CDN base is configured — with all
trailing slashes of the configured base stripped and exactly one slash
inserted, so the base-filename boundary has a single slash — and
`js/<filename>` otherwise; the `OriginalPlugin` URL is left untouched. -/
theorem claim_C7 (cdnUrl body : String) (st : FPState) (p : Plugin)
    (h : p.url ∉ st.seen) :
    (download_and_process_plugin cdnUrl (some body) st p).1.1 = true ∧
    (download_and_process_plugin cdnUrl (some body) st p).1.2.2.url = p.url ∧
    (cdnUrl = "" →
      (download_and_process_plugin cdnUrl (some body) st p).1.2.1.url =
        "js/" ++ (sanitize_filename
          ((download_and_process_plugin cdnUrl (some body) st p).1.2.1.name.getD "")
          ++ ".js")) ∧
    (cdnUrl ≠ "" →
      (download_and_process_plugin cdnUrl (some body) st p).1.2.1.url =
        rstripSlash cdnUrl ++ "/" ++ (sanitize_filename
          ((download_and_process_plugin cdnUrl (some body) st p).1.2.1.name.getD "")
          ++ ".js") ∧
      (rstripSlash cdnUrl).data.getLast? ≠ some '/' ∧
      rstripSlash (cdnUrl ++ "/") = rstripSlash cdnUrl) := by
  rw [dapp_some cdnUrl body st p h]
  refine ⟨rfl, rfl, ?_, ?_⟩
  · intro hc
    simp [rewriteUrl, hc]
  · intro hc
    exact ⟨by simp [rewriteUrl, hc], rstripSlash_no_trailing cdnUrl,
      rstripSlash_append_slash cdnUrl⟩

/-- Witness for C7 at a concrete input: a CDN base with two trailing
slashes yields a URL with a single slash before the filename. -/
theorem claim_C7_witness :
    (download_and_process_plugin "http://cdn//" (some "b") ⟨[], []⟩
      ⟨"u", some "n", []⟩).1.2.1.url =
      rstripSlash "http://cdn//" ++ "/" ++ (sanitize_filename
        ((download_and_process_plugin "http://cdn//" (some "b") ⟨[], []⟩
          ⟨"u", some "n", []⟩).1.2.1.name.getD "") ++ ".js") :=
  ((claim_C7 "http://cdn//" "b" ⟨[], []⟩ ⟨"u", some "n", []⟩
    (by decide)).2.2.2 (by decide)).1

/-- C8: when the source configuration file is missing or corrupt, the
failure is logged (`configErrorLogged = true`), the run terminates before
the manifest-writing step — neither manifest is written — and no mirrored
payload file is produced. -/
theorem claim_C8 (att : Nat → List (Option SubResponse))
    (dl : Nat → Option String) (cdn : String) :
    mainRun none att dl cdn = ⟨none, none, [], true⟩ := rfl

/-- C9: if no download succeeds (the `ProcessedPlugin` list is empty),
`main` returns before manifest writing, so neither manifest is written,
although one `OriginalPlugin` record exists per input descriptor. -/
theorem claim_C9 (cfgLoad : Option SourceConfig)
    (att : Nat → List (Option SubResponse)) (dl : Nat → Option String)
    (cdn : String)
    (h : (fetch_plugins cdn dl (collect_plugins att (load_origins cfgLoad).1)).1 = []) :
    (mainRun cfgLoad att dl cdn).allManifest = none ∧
    (mainRun cfgLoad att dl cdn).pluginsManifest = none ∧
    (fetch_plugins cdn dl (collect_plugins att (load_origins cfgLoad).1)).2.1.length =
      (collect_plugins att (load_origins cfgLoad).1).length := by
  have hmm : (mainRun cfgLoad att dl cdn).allManifest = none ∧
      (mainRun cfgLoad att dl cdn).pluginsManifest = none := by
    by_cases hempty : (collect_plugins att (load_origins cfgLoad).1).isEmpty
    · simp [mainRun, hempty]
    · simp [mainRun, hempty, h]
  exact ⟨hmm.1, hmm.2,
    by simp [fetch_plugins, List.length_map, go_results_length]⟩

/-- Witness for C9 at a concrete input: one single whose download fails —
no manifest is written. -/
theorem claim_C9_witness :
    (mainRun (some ⟨[], [⟨"u", some "A", []⟩]⟩) (fun _ => [])
      (fun _ => none) "").allManifest = none :=
  (claim_C9 (some ⟨[], [⟨"u", some "A", []⟩]⟩) (fun _ => [])
    (fun _ => none) "" (by decide)).1

/-- C10: a non-duplicate descriptor lacking a `name` key is processed
exactly as if its name were its `url` string: sensitive-term
substitution, collision suffixing and filename sanitization all apply to
the URL, and both output records receive the resulting resolved name. -/
theorem claim_C10 (cdnUrl body : String) (st : FPState) (p : Plugin)
    (hname : p.name = none) (h : p.url ∉ st.seen) :
    download_and_process_plugin cdnUrl (some body) st p =
      download_and_process_plugin cdnUrl (some body) st
        { p with name := some p.url } ∧
    (download_and_process_plugin cdnUrl (some body) st p).1.2.1.name =
      some (resolveName st.nameCount (substSensitive p.url)).1 ∧
    (download_and_process_plugin cdnUrl (some body) st p).1.2.2.name =
      some (resolveName st.nameCount (substSensitive p.url)).1 ∧
    (download_and_process_plugin cdnUrl (some body) st p).2.2 =
      some (sanitize_filename (resolveName st.nameCount (substSensitive p.url)).1
        ++ ".js", body) := by
  have h2 : ({ p with name := some p.url } : Plugin).url ∉ st.seen := h
  rw [dapp_some cdnUrl body st p h, dapp_some cdnUrl body st _ h2]
  simp [hname]

/-- Witness for C10 at a concrete input: a nameless descriptor behaves as
one named by its URL. -/
theorem claim_C10_witness :
    download_and_process_plugin "" (some "b") ⟨[], []⟩ ⟨"u", none, []⟩ =
      download_and_process_plugin "" (some "b") ⟨[], []⟩ ⟨"u", some "u", []⟩ :=
  (claim_C10 "" "b" ⟨[], []⟩ ⟨"u", none, []⟩ rfl (by decide)).1
